import Mathlib

/-!
# BrowserOS patch-management engine: verification of the specification

Shallow embedding of the patch-management subsystem of the BrowserOS build
tooling (`build/modules/patches.py` and `build/modules/dev_cli/{utils,apply,
extract,feature}.py`), together with proofs settling the frozen claims about
its natural-language specification.

Conventions of the embedding:
* Python strings become `String`; `str.strip()` becomes `strTrim`,
  `str.lower()` becomes `strToLower`, `'\n'.join` becomes `strIntercalate`.
  The primitive string operations are implemented here by structural
  recursion over the character list so that they evaluate inside the
  kernel on concrete inputs.
* Python dicts keyed by file path become association lists
  (`List (String × FilePatch)`) with insert-or-replace semantics, which
  preserves the dict's insertion order.
* Subprocess invocations of the git backend are modelled by oracle
  functions supplied as arguments (exit codes, diff text, existence
  probes); a deterministic oracle models a backend whose object store does
  not change during the run.
* Filesystem state touched by the applier is modelled as the list of paths
  (component lists) present in the working tree; OS-level I/O errors
  (e.g. `unlink` raising) are outside the model.
-/

namespace BrowserOS

/-! ## Structurally recursive string primitives -/

/-- Split a character list at every occurrence of the nonempty separator
`sep`, scanning left to right (Python `str.split(sep)` semantics).  `fuel`
bounds the recursion; it is always called with `fuel ≥` the list length,
which suffices because every step consumes at least one character. -/
def splitOnCharsFuel (sep : List Char) : Nat → List Char → List Char → List (List Char)
  | _, [], acc => [acc.reverse]
  | 0, rest, acc => [acc.reverse ++ rest]
  | fuel + 1, c :: rest, acc =>
    if sep.isPrefixOf (c :: rest) then
      acc.reverse :: splitOnCharsFuel sep fuel (List.drop (sep.length - 1) rest) []
    else
      splitOnCharsFuel sep fuel rest (c :: acc)

/-- Python `s.split(sep)` for a nonempty separator (for an empty separator we
return `[s]`, matching `String.splitOn`; the embedded code never splits on
an empty separator). -/
def strSplitOn (s sep : String) : List String :=
  if sep = "" then [s]
  else (splitOnCharsFuel sep.toList s.toList.length s.toList []).map List.asString

/-- Python `'needle' in s` substring test: `s.split(needle)` has a second
chunk exactly when the needle occurs. -/
def strContainsSub (s sub : String) : Bool :=
  (strSplitOn s sub).length ≥ 2

/-- Python `s.startswith(pre)`. -/
def strStartsWith (s pre : String) : Bool :=
  pre.toList.isPrefixOf s.toList

/-- Python `s[n:]` (by code points). -/
def strDrop (s : String) (n : Nat) : String :=
  (s.toList.drop n).asString

/-- Python `s.strip()`: remove leading and trailing whitespace. -/
def strTrim (s : String) : String :=
  (((s.toList.dropWhile Char.isWhitespace).reverse.dropWhile Char.isWhitespace).reverse).asString

/-- Python `s.lower()` (the embedded code only lowercases ASCII platform
names). -/
def strToLower (s : String) : String :=
  (s.toList.map Char.toLower).asString

/-- Python `sep.join(chunks)`. -/
def strIntercalate (sep : String) : List String → String
  | [] => ""
  | [x] => x
  | x :: xs => x ++ sep ++ strIntercalate sep xs

/-- Decimal value of a digit string (used after `\d+` matched). -/
def digitsToNat (ds : List Char) : Nat :=
  ds.foldl (fun n c => 10 * n + (c.toNat - '0'.toNat)) 0

/-! ## Data model (`dev_cli/utils.py`) -/

/-- `FileOperation` enum from `dev_cli/utils.py`. -/
inductive FileOperation
  | add
  | modify
  | delete
  | rename
  | copy
  | binary
deriving DecidableEq, Repr

/-- `FilePatch` dataclass from `dev_cli/utils.py`: one changed file's
patch record. -/
structure FilePatch where
  file_path : String
  operation : FileOperation
  old_path : Option String := none
  patch_content : Option String := none
  is_binary : Bool := false
  similarity : Option Nat := none
deriving DecidableEq, Repr

/-! ## Diff parser (`parse_diff_output`, dev_cli/utils.py lines 169-293) -/

/-- Python `str.splitlines()` restricted to `\n`-separated text (diff text
is newline separated): split on `\n` and drop the empty chunk a trailing
newline produces. -/
def splitlines (s : String) : List String :=
  let parts := strSplitOn s "\n"
  if parts.getLast? = some "" then parts.dropLast else parts

/-- Python `dict[k] = v` on an insertion-ordered dict represented as an
association list: replace in place if the key is present, else append. -/
def insertOrReplace (m : List (String × FilePatch)) (k : String) (v : FilePatch) :
    List (String × FilePatch) :=
  if m.any (fun kv => kv.1 == k) then
    m.map (fun kv => if kv.1 == k then (k, v) else kv)
  else m ++ [(k, v)]

/-- Python `dict.update`: insert-or-replace every entry of the second map. -/
def dictUpdate (m entries : List (String × FilePatch)) : List (String × FilePatch) :=
  entries.foldl (fun acc kv => insertOrReplace acc kv.1 kv.2) m

/-- `re.match(r'diff --git a/(.*) b/(.*)', line)`: the line must start with
`diff --git a/`; the first group is greedy, so the split point is the LAST
occurrence of `" b/"`.  Returns `(old_file, new_file)` on a match. -/
def parseDiffGitLine (line : String) : Option (String × String) :=
  if strStartsWith line "diff --git a/" then
    let parts := strSplitOn (strDrop line 13) " b/"
    if parts.length ≥ 2 then
      some (strIntercalate " b/" parts.dropLast, parts.getLastD "")
    else none
  else none

/-- `re.match(r'similarity index (\d+)%', line)`: prefix
`"similarity index "`, then one or more digits, then `%`. -/
def parseSimilarityIndex (line : String) : Option Nat :=
  if strStartsWith line "similarity index " then
    let rest := (strDrop line 17).toList
    let ds := rest.takeWhile Char.isDigit
    if ds ≠ [] ∧ (rest.drop ds.length).take 1 = ['%'] then some (digitsToNat ds)
    else none
  else none

/-- The mutable scanner state of `parse_diff_output`. -/
structure ParserState where
  patches : List (String × FilePatch)
  current_file : Option String
  current_patch_lines : List String
  current_operation : FileOperation
  is_binary : Bool
  old_path : Option String
  similarity : Option Nat

/-- Python truthiness of the `current_file` variable (`None` and the empty
string are falsy). -/
def fileTruthy : Option String → Bool
  | some s => !(s == "")
  | none => false

/-- "Save previous patch if exists": the block guarded by
`if current_file and current_patch_lines:` that finalizes the current
section into a `FilePatch` (content suppressed for binary sections). -/
def finalizePatches (st : ParserState) : List (String × FilePatch) :=
  match st.current_file with
  | some f =>
    if f ≠ "" ∧ st.current_patch_lines ≠ [] then
      insertOrReplace st.patches f
        { file_path := f
          operation := st.current_operation
          old_path := st.old_path
          patch_content :=
            if st.is_binary then none
            else some (strIntercalate "\n" st.current_patch_lines)
          is_binary := st.is_binary
          similarity := st.similarity }
    else st.patches
  | none => st.patches

/-- Handling of a `diff --git` boundary line: finalize the previous section,
then either open a new section (on a parseable boundary) or drop into the
warning state (`current_file = None`). -/
def startBoundary (st : ParserState) (line : String) : ParserState :=
  let saved := finalizePatches st
  match parseDiffGitLine line with
  | some (_, new_file) =>
    { patches := saved
      current_file := some new_file
      current_patch_lines := [line]
      current_operation := .modify
      is_binary := false
      old_path := none
      similarity := none }
  | none =>
    { st with patches := saved, current_file := none, current_patch_lines := [] }

/-- The metadata `elif` chain of `parse_diff_output` for a non-boundary line
while a file section is open.  Every branch appends the line verbatim to
`current_patch_lines`; the branches differ only in the state fields they
update. -/
def updateMeta (st : ParserState) (line : String) : ParserState :=
  let st := { st with current_patch_lines := st.current_patch_lines ++ [line] }
  if strStartsWith line "deleted file" then
    { st with current_operation := .delete }
  else if strStartsWith line "new file" then
    { st with current_operation := .add }
  else if strStartsWith line "similarity index" then
    match parseSimilarityIndex line with
    | some n => { st with similarity := some n }
    | none => st
  else if strStartsWith line "rename from" then
    { st with current_operation := .rename, old_path := some (strTrim (strDrop line 12)) }
  else if strStartsWith line "rename to" then st
  else if strStartsWith line "copy from" then
    { st with current_operation := .copy, old_path := some (strTrim (strDrop line 10)) }
  else if strStartsWith line "copy to" then st
  else if line == "Binary files differ" || strStartsWith line "Binary files" then
    { st with is_binary := true
              current_operation :=
                if st.current_operation == .modify then .binary
                else st.current_operation }
  else st

/-- One iteration of the scanner loop of `parse_diff_output`. -/
def parseStep (st : ParserState) (line : String) : ParserState :=
  if strStartsWith line "diff --git" then startBoundary st line
  else if fileTruthy st.current_file then updateMeta st line
  else st

/-- Initial scanner state of `parse_diff_output`. -/
def initParserState : ParserState :=
  { patches := []
    current_file := none
    current_patch_lines := []
    current_operation := .modify
    is_binary := false
    old_path := none
    similarity := none }

/-- `parse_diff_output` (dev_cli/utils.py): scan the diff text line by line
and return the insertion-ordered map from file path to `FilePatch`. -/
def parse_diff_output (diff_output : String) : List (String × FilePatch) :=
  finalizePatches ((splitlines diff_output).foldl parseStep initParserState)

/-- The rename-only diff of the spec's scenario. -/
def renameOnlyDiff : String :=
  "diff --git a/a.txt b/b.txt\nsimilarity index 100%\nrename from a.txt\nrename to b.txt"

/-! ## Path suffix/stem (Python `pathlib.PurePath.suffix` / `.stem`)

A path is modelled as its directory components plus its final filename
component.  `PurePath.suffix`/`.stem` depend only on the final component:
with `i = name.rfind('.')`, the suffix is `name[i:]` when `0 < i <
len(name) - 1` and empty otherwise, and the stem is the rest. -/

/-- Index of the last `'.'` in a filename (character index), if any
(Python `name.rfind('.')` restricted to the found case). -/
def lastDotIdx (name : String) : Option Nat :=
  ((List.range name.toList.length).filter
    (fun i => name.toList.getD i ' ' == '.')).getLast?

/-- `PurePath.suffix` of a filename. -/
def fileSuffix (name : String) : String :=
  match lastDotIdx name with
  | some i =>
    if 0 < i ∧ i < name.toList.length - 1 then (name.toList.drop i).asString else ""
  | none => ""

/-- `PurePath.stem` of a filename. -/
def fileStem (name : String) : String :=
  match lastDotIdx name with
  | some i =>
    if 0 < i ∧ i < name.toList.length - 1 then (name.toList.take i).asString else name
  | none => name

/-! ## Patch applier (`apply_single_patch`, dev_cli/utils.py lines 380-446)

The three git apply strategies are invoked in the order written in the
source: plain `git apply -p1`, then `git apply -p1 --3way`, then
`git apply -p1 --whitespace=fix`.  The git backend is an oracle giving the
success of each strategy; the working tree is the list of paths present.
The result records, besides success and the user-visible message, the list
of git invocations made (for reasoning about attempt order).  Interactive
conflict handling (`handle_patch_conflict`) is out of scope here: we model
the `interactive=False` branch, which reports failure. -/

inductive ApplyStrategy
  | standard
  | threeWay
  | whitespaceFix
deriving DecidableEq, Repr

/-- Result of `apply_single_patch`: the (possibly changed) working tree, the
`(success, message)` pair the function returns, and the git apply
invocations it made, in order. -/
structure ApplyResult where
  tree : List (List String)
  success : Bool
  message : String
  gitAttempts : List ApplyStrategy
deriving DecidableEq, Repr

/-- `apply_single_patch` (dev_cli/utils.py): the patch artifact is given by
its directory components `patchDirs` and filename `patchName`;
`chromiumSrc` is the source root's components, `tree` the set of files
present, `git` the backend oracle, and `patchExists` models
`patch_path.exists()`. -/
def apply_single_patch (patchDirs : List String) (patchName : String)
    (chromiumSrc : List String) (tree : List (List String))
    (git : ApplyStrategy → Bool) (patchExists : Bool) : ApplyResult :=
  if !patchExists then
    { tree := tree, success := false
      message := "Patch file not found: " ++ patchName, gitAttempts := [] }
  else if fileSuffix patchName = ".deleted" then
    -- file deletion marker: the target is `chromium_src / patch_path.stem`,
    -- built from the marker's final filename component only
    let file_path := fileStem patchName
    let target := chromiumSrc ++ [file_path]
    if tree.contains target then
      { tree := tree.filter (· ≠ target), success := true
        message := "Deleted: " ++ file_path, gitAttempts := [] }
    else
      { tree := tree, success := true
        message := "Already deleted: " ++ file_path, gitAttempts := [] }
  else if fileSuffix patchName = ".binary" then
    { tree := tree, success := false
      message := "Binary file patch not supported: " ++ patchName, gitAttempts := [] }
  else if git .standard then
    { tree := tree, success := true
      message := "Applied: " ++ patchName, gitAttempts := [.standard] }
  else if git .threeWay then
    { tree := tree, success := true
      message := "Applied (3-way): " ++ patchName
      gitAttempts := [.standard, .threeWay] }
  else if git .whitespaceFix then
    { tree := tree, success := true
      message := "Applied (whitespace fixed): " ++ patchName
      gitAttempts := [.standard, .threeWay, .whitespaceFix] }
  else
    { tree := tree, success := false
      message := "Failed: " ++ patchName
      gitAttempts := [.standard, .threeWay, .whitespaceFix] }

/-! ## Series file parsing (`parse_series_file`, patches.py lines 136-169) -/

/-- A series entry: patch path (relative to the patches dir, as written in
the series file) and the optional platform skip list. -/
abbrev SeriesEntry := String × Option (List String)

/-- The body of the `for line in lines` loop of `parse_series_file`:
process one raw line against the accumulated entry list. -/
def parse_series_step (patches : List SeriesEntry) (rawLine : String) : List SeriesEntry :=
  let line := strTrim rawLine
  if line = "" || strStartsWith line "#" then patches
  else if strContainsSub line " #skip:" then
    let parts := strSplitOn line " #skip:"
    patches ++ [(strTrim (parts.headD ""),
      some (((strSplitOn (parts.getD 1 "") ",").map (fun p => strToLower (strTrim p)))))]
  else if strContainsSub line " #" then
    patches ++ [(strTrim ((strSplitOn line " #").headD ""), none)]
  else patches ++ [(line, none)]

/-- `parse_series_file` (patches.py): fold the loop body over the series
file's lines, starting from the empty entry list. -/
def parse_series_file (lines : List String) : List SeriesEntry :=
  lines.foldl parse_series_step []

/-- Per-line summary of `parse_series_step` used to characterize
`parse_series_file` as an order-preserving `filterMap`. -/
def seriesLineEntry (rawLine : String) : Option SeriesEntry :=
  let line := strTrim rawLine
  if line = "" || strStartsWith line "#" then none
  else if strContainsSub line " #skip:" then
    let parts := strSplitOn line " #skip:"
    some (strTrim (parts.headD ""),
      some (((strSplitOn (parts.getD 1 "") ",").map (fun p => strToLower (strTrim p)))))
  else if strContainsSub line " #" then
    some (strTrim ((strSplitOn line " #").headD ""), none)
  else some (line, none)

/-! ## Platform skip filter (`should_skip_patch` etc., patches.py) -/

/-- Host platforms distinguished by `utils.py`'s `IS_WINDOWS`/`IS_LINUX`/
`IS_MACOS` flags. -/
inductive Host
  | windows
  | linux
  | macos
  | other
deriving DecidableEq, Repr

/-- `get_current_platform` (patches.py lines 100-109). -/
def get_current_platform : Host → String
  | .windows => "windows"
  | .linux => "linux"
  | .macos => "darwin"
  | .other => "unknown"

/-- The hard-coded `platform_aliases` table with its `dict.get(current,
[current])` default (patches.py lines 120-126). -/
def platform_aliases (current : String) : List String :=
  if current = "darwin" then ["darwin", "macos", "mac", "osx"]
  else if current = "linux" then ["linux"]
  else if current = "windows" then ["windows", "win32", "win"]
  else [current]

/-- `should_skip_patch` (patches.py lines 112-133). -/
def should_skip_patch (current : String) (skip_platforms : Option (List String)) : Bool :=
  match skip_platforms with
  | none => false
  | some sps => sps.any (fun sp => (platform_aliases current).contains sp)

/-- The platform filter that `apply_patches` (patches.py lines 40-48) runs
before its apply loop: partition the series entries into the kept list and
the skipped count. -/
def series_platform_filter (current : String) (entries : List SeriesEntry) :
    List SeriesEntry × Nat :=
  entries.foldl
    (fun acc e =>
      if should_skip_patch current e.2 then (acc.1, acc.2 + 1)
      else (acc.1 ++ [e], acc.2))
    ([], 0)

/-- Outcome of one `apply_single_patch` call in patches.py's apply loop: the
call either returns (success or operator-chosen skip both return `True`;
the interactive failure prompt's retry/manual paths also eventually
return), or the operator picks "Abort patching", which raises. -/
inductive StepOutcome
  | completed
  | aborted
deriving DecidableEq, Repr

/-- The per-entry apply loop of `apply_patches` (patches.py lines 66-95),
non-interactive: missing patch files are logged and skipped; an operator
abort inside the conflict prompt raises (modelled as `Except.error`). -/
def apply_patches_go (pathExists : String → Bool) (runPatch : String → StepOutcome)
    (skippedCount : Nat) :
    List SeriesEntry → List String → Except String (Bool × List String × Nat)
  | [], attempted => .ok (true, attempted, skippedCount)
  | e :: rest, attempted =>
    if !pathExists e.1 then apply_patches_go pathExists runPatch skippedCount rest attempted
    else
      match runPatch e.1 with
      | .completed =>
        apply_patches_go pathExists runPatch skippedCount rest (attempted ++ [e.1])
      | .aborted => .error "Patch process aborted by user"

/-- `apply_patches` (patches.py lines 15-95), reduced to its series
semantics: run the platform filter, succeed immediately with zero
attempts when every entry was skipped (or none was listed), else run the
apply loop.  Returns `(success, attempted patch paths, platform-skip
count)`. -/
def apply_patches_run (current : String) (entries : List SeriesEntry)
    (pathExists : String → Bool) (runPatch : String → StepOutcome) :
    Except String (Bool × List String × Nat) :=
  let filtered := series_platform_filter current entries
  -- `if not patches:` — all skipped (or none listed) is a success
  if filtered.1 = [] then .ok (true, [], filtered.2)
  else apply_patches_go pathExists runPatch filtered.2 filtered.1 []

/-! ## Feature registry (`add_feature`, dev_cli/feature.py lines 61-71) -/

/-- Lexicographic comparison of character lists by code point, the order
Python uses to compare strings. -/
def charListLe : List Char → List Char → Bool
  | [], _ => true
  | _ :: _, [] => false
  | a :: as, b :: bs =>
    if a.toNat < b.toNat then true
    else if b.toNat < a.toNat then false
    else charListLe as bs

/-- Python's `<=` on strings: lexicographic by code point. -/
@[reducible] def strLe (a b : String) : Prop :=
  charListLe a.toList b.toList = true

instance : DecidableRel strLe := fun a b =>
  instDecidableEqBool (charListLe a.toList b.toList) true

instance : IsTotal String strLe :=
  ⟨fun a b => by
    suffices h : ∀ as bs, charListLe as bs = true ∨ charListLe bs as = true from h _ _
    intro as
    induction as with
    | nil => intro bs; left; rfl
    | cons a as ih =>
      intro bs
      cases bs with
      | nil => right; rfl
      | cons b bs =>
        by_cases hab : a.toNat < b.toNat
        · left; simp [charListLe, hab]
        · by_cases hba : b.toNat < a.toNat
          · right; simp [charListLe, hba]
          · rcases ih bs with h | h
            · left; simp [charListLe, hab, hba, h]
            · right; simp [charListLe, hab, hba, h]⟩

instance : IsTrans String strLe :=
  ⟨fun a b c => by
    suffices h : ∀ as bs cs, charListLe as bs = true → charListLe bs cs = true →
        charListLe as cs = true from h _ _ _
    intro as
    induction as with
    | nil => intros; rfl
    | cons a as ih =>
      intro bs cs h1 h2
      cases bs with
      | nil => simp [charListLe] at h1
      | cons b bs =>
        cases cs with
        | nil => simp [charListLe] at h2
        | cons c cs =>
          simp only [charListLe] at h1 h2 ⊢
          split_ifs at h1 h2 ⊢ <;> first
            | rfl
            | omega
            | (exact ih bs cs h1 h2)⟩

/-- Python `sorted(...)` on a list of strings: an ascending sort with
respect to the lexicographic order (any comparison sort is extensionally
equal on this linear order). -/
def pySorted (l : List String) : List String :=
  l.insertionSort strLe

/-- The file-list merge performed by `feature add` on an existing feature:
`sorted(list(set(existing) | set(changed)))` — the sorted union of the two
file sets. -/
def add_feature_files (existing changed : List String) : List String :=
  pySorted ((existing ++ changed).dedup)

/-! ## Custom-base extraction (`extract_with_base`, dev_cli/extract.py
lines 267-360)

The git backend is an oracle keyed by file path (the base and head
revisions are fixed for the whole run): `diffOk f` is whether
`git diff base..head -- f` exits 0, `diffOut f` its stdout, and
`existsAtBase`/`existsAtHead` are the `git cat-file -e` probes.  The
oracle is a function, so re-running the same diff command yields the same
output (a backend whose store does not change during the run). -/

structure GitDiffOracle where
  diffOk : String → Bool
  diffOut : String → String
  existsAtBase : String → Bool
  existsAtHead : String → Bool

/-- The per-file loop of `extract_with_base` building `file_patches`: parse
a non-empty per-file diff; on an empty diff, probe existence at both
revisions, re-running the (identical) diff command in the added case and
recording a content-less Delete `FilePatch` in the deleted case. -/
def extract_with_base_patches (g : GitDiffOracle) (changed_files : List String) :
    List (String × FilePatch) :=
  changed_files.foldl
    (fun acc f =>
      if !g.diffOk f then acc
      else if strTrim (g.diffOut f) ≠ "" then
        let ps := parse_diff_output (g.diffOut f)
        if ps ≠ [] then dictUpdate acc ps else acc
      else
        let base_exists := g.existsAtBase f
        let commit_exists := g.existsAtHead f
        if !base_exists && commit_exists then
          -- "File was added - get full content": re-runs the same
          -- `git diff base..head -- f` command and parses its stdout
          if strTrim (g.diffOut f) ≠ "" then
            let ps := parse_diff_output (g.diffOut f)
            if ps ≠ [] then dictUpdate acc ps else acc
          else acc
        else if base_exists && !commit_exists then
          insertOrReplace acc f
            { file_path := f
              operation := .delete
              old_path := none
              patch_content := none
              is_binary := false
              similarity := none }
        else acc)
    []

/-! ## Dev-CLI batch apply (`apply_single_patch` / `process_patch_list`,
dev_cli/apply.py)

`run_git_command` (dev_cli/utils.py lines 112-114) turns a subprocess
timeout into a raised `GitError`; each git invocation therefore either
returns an exit code or raises.  `process_patch_list` is modelled in its
batch configuration (`interactive=False`, `dry_run=False`,
`commit_each=False`). -/

/-- Result of one git subprocess invocation: an exit code, or a timeout
(which `run_git_command` converts into a raised `GitError`). -/
inductive GitRes
  | ret (code : Nat)
  | timeout
deriving DecidableEq, Repr

/-- One patch in the batch: its display name, whether the patch file
exists, and the backend's behavior for the standard and `--3way` apply
invocations. -/
structure DevPatch where
  name : String
  onDisk : Bool
  standard : GitRes
  threeWay : GitRes
deriving DecidableEq, Repr

/-- `apply_single_patch` (dev_cli/apply.py lines 42-108, `dry_run=False`):
standard apply (with whitespace tolerance flags), then `--3way` on
failure; a timed-out invocation raises `GitError` (modelled as
`Except.error`). -/
def dev_apply_single_patch (p : DevPatch) : Except String Bool :=
  match p.standard with
  | .timeout => .error "GitError: command timed out"
  | .ret c =>
    if c ≠ 0 then
      match p.threeWay with
      | .timeout => .error "GitError: command timed out"
      | .ret c2 => .ok (c2 = 0)
    else .ok true

/-- The loop body of `process_patch_list` (dev_cli/apply.py lines 201-240)
for the batch configuration, threading the applied count and failed list.
A `GitError` raised inside `apply_single_patch` is not caught and
propagates out of the loop. -/
def process_patch_list_go (ps : List DevPatch) (applied : Nat) (failed : List String) :
    Except String (Nat × List String) :=
  match ps with
  | [] => .ok (applied, failed)
  | p :: rest =>
    if !p.onDisk then process_patch_list_go rest applied (failed ++ [p.name])
    else
      match dev_apply_single_patch p with
      | .error e => .error e
      | .ok true => process_patch_list_go rest (applied + 1) failed
      | .ok false => process_patch_list_go rest applied (failed ++ [p.name])

/-- `process_patch_list` (dev_cli/apply.py), batch configuration: returns
`(applied_count, failed_list)` unless a `GitError` escapes. -/
def process_patch_list (ps : List DevPatch) : Except String (Nat × List String) :=
  process_patch_list_go ps 0 []

/-- Whether a patch's apply attempt raises `GitError` (some git invocation
it performs times out). -/
def devPatchRaises (p : DevPatch) : Bool :=
  p.onDisk &&
    (match p.standard with
     | .timeout => true
     | .ret c => c ≠ 0 && (match p.threeWay with | .timeout => true | .ret _ => false))

/-! ## Concrete inputs used by witnesses and counterexamples -/

/-- The binary-file diff of the parser's test suite. -/
def binaryDiff : String :=
  "diff --git a/image.png b/image.png\nindex abc123..def456 100644\nBinary files a/image.png and b/image.png differ"

/-- The `FilePatch` that `parse_diff_output` produces for `binaryDiff`. -/
def binaryDiffPatch : FilePatch :=
  { file_path := "image.png"
    operation := .binary
    old_path := none
    patch_content := none
    is_binary := true
    similarity := none }

/-- An oracle on which the standard apply fails and both retry strategies
would succeed. -/
def failStandardOracle : ApplyStrategy → Bool := fun s => !(s == .standard)

/-- A deterministic backend for a file that the per-file diff reports as
unchanged (empty diff, exit 0) but that the existence probes reveal as
absent at the base and present at the head: an added file. -/
def addedFileOracle : GitDiffOracle :=
  { diffOk := fun _ => true
    diffOut := fun _ => ""
    existsAtBase := fun _ => false
    existsAtHead := fun _ => true }

/-- Same backend, but for a file present at the base and absent at the
head: a deleted file. -/
def deletedFileOracle : GitDiffOracle :=
  { diffOk := fun _ => true
    diffOut := fun _ => ""
    existsAtBase := fun _ => true
    existsAtHead := fun _ => false }

/-- A patch whose standard apply invocation times out. -/
def timeoutPatch : DevPatch :=
  { name := "p1.patch", onDisk := true, standard := .timeout, threeWay := .ret 0 }

/-- A patch that applies cleanly. -/
def okPatch : DevPatch :=
  { name := "p2.patch", onDisk := true, standard := .ret 0, threeWay := .ret 0 }

/-! ## Helper lemmas -/

/-- The binary-vs-content invariant of a `FilePatch` produced by the
parser. -/
def GoodPatch (p : FilePatch) : Prop :=
  (p.is_binary = true → p.patch_content = none) ∧
  (p.is_binary = false → ∃ c, p.patch_content = some c)

theorem mem_insertOrReplace {m : List (String × FilePatch)} {k : String}
    {v : FilePatch} {kp : String × FilePatch} (h : kp ∈ insertOrReplace m k v) :
    kp ∈ m ∨ kp = (k, v) := by
  unfold insertOrReplace at h
  split at h
  · rcases List.mem_map.mp h with ⟨kv, hkv, heq⟩
    split at heq
    · right; exact heq.symm
    · left; exact heq ▸ hkv
  · rcases List.mem_append.mp h with h | h
    · left; exact h
    · right; simpa using h

theorem finalize_good (st : ParserState)
    (hst : ∀ kp ∈ st.patches, GoodPatch kp.2) :
    ∀ kp ∈ finalizePatches st, GoodPatch kp.2 := by
  intro kp hkp
  unfold finalizePatches at hkp
  split at hkp
  · split at hkp
    · rcases mem_insertOrReplace hkp with h | h
      · exact hst kp h
      · subst h
        refine ⟨fun hb => ?_, fun hb => ?_⟩
        · simp at hb; simp [hb]
        · simp at hb; simp [hb]
    · exact hst kp hkp
  · exact hst kp hkp

theorem updateMeta_patches (st : ParserState) (line : String) :
    (updateMeta st line).patches = st.patches := by
  unfold updateMeta
  repeat' split
  all_goals rfl

theorem startBoundary_patches (st : ParserState) (line : String) :
    (startBoundary st line).patches = finalizePatches st := by
  unfold startBoundary
  split <;> rfl

theorem parseStep_good (st : ParserState) (line : String)
    (hst : ∀ kp ∈ st.patches, GoodPatch kp.2) :
    ∀ kp ∈ (parseStep st line).patches, GoodPatch kp.2 := by
  unfold parseStep
  split
  · rw [startBoundary_patches]
    exact finalize_good st hst
  · split
    · rw [updateMeta_patches]
      exact hst
    · exact hst

theorem foldl_parseStep_good (lines : List String) (st : ParserState)
    (hst : ∀ kp ∈ st.patches, GoodPatch kp.2) :
    ∀ kp ∈ (lines.foldl parseStep st).patches, GoodPatch kp.2 := by
  induction lines generalizing st with
  | nil => exact hst
  | cons l rest ih => exact ih (parseStep st l) (parseStep_good st l hst)

/-! ## Claims about the diff parser -/

/-- C1, counterexample: the rename-only diff of the spec's scenario
(`diff --git` boundary, `similarity index 100%`, `rename from a.txt`,
`rename to b.txt`, no hunks) parses to one entry, but its `patch_content`
is NOT `None`: the parser appends every recognized header line to the
section body and finalizes non-binary sections with the joined text. -/
theorem rename_only_patch_content_not_none :
    (parse_diff_output renameOnlyDiff).length = 1 ∧
    (parse_diff_output renameOnlyDiff).map (fun kp => kp.2.patch_content) ≠ [none] := by
  decide

/-- C1, amended: the rename-only diff parses to exactly one `FilePatch`
keyed by `b.txt`, with `operation = Rename`, `old_path = "a.txt"`,
`similarity = 100`, `is_binary = false`, and `patch_content` equal to the
verbatim section text (boundary plus similarity/rename header lines)
rather than `None`. -/
theorem rename_only_parse_result :
    parse_diff_output renameOnlyDiff =
      [("b.txt",
        { file_path := "b.txt"
          operation := .rename
          old_path := some "a.txt"
          patch_content := some renameOnlyDiff
          is_binary := false
          similarity := some 100 })] := by
  decide

/-- C7: for every diff input figure and every `FilePatch` in the parse
result, a binary patch has no `patch_content` (never a placeholder
string), and a non-binary patch always has a present content string —
exactly one arm of the content invariant holds. -/
theorem parse_binary_content_invariant (s : String) (kp : String × FilePatch)
    (h : kp ∈ parse_diff_output s) :
    (kp.2.is_binary = true → kp.2.patch_content = none) ∧
    (kp.2.is_binary = false → ∃ c, kp.2.patch_content = some c) := by
  have : ∀ kp ∈ parse_diff_output s, GoodPatch kp.2 := by
    unfold parse_diff_output
    exact finalize_good _ (foldl_parseStep_good _ _ (by intro kp h; simp [initParserState] at h))
  exact this kp h

/-- C7, witness: the invariant applied to the concrete binary-file diff —
its parsed entry is binary and carries no content. -/
theorem parse_binary_content_invariant_witness :
    binaryDiffPatch.patch_content = none :=
  (parse_binary_content_invariant binaryDiff ("image.png", binaryDiffPatch)
    (by decide)).1 (by decide)

/-! ## Claims about the patch applier -/

/-- C2, counterexample: on a patch whose standard apply fails (and for
which both retry strategies would succeed), the applier's SECOND git
invocation is the three-way merge, not the whitespace-tolerant apply; the
run ends as `Applied (3-way)` without the whitespace strategy ever being
attempted. -/
theorem second_attempt_is_three_way_not_whitespace :
    failStandardOracle .standard = false ∧
    (apply_single_patch [] "x.patch" ["src"] [] failStandardOracle true).gitAttempts[1]? =
      some .threeWay ∧
    (apply_single_patch [] "x.patch" ["src"] [] failStandardOracle true).gitAttempts[1]? ≠
      some .whitespaceFix ∧
    (apply_single_patch [] "x.patch" ["src"] [] failStandardOracle true).message =
      "Applied (3-way): x.patch" := by
  decide

/-- C2, amended: for every patch (not a deletion or binary marker) whose
standard apply fails, the applier next attempts the three-way merge
(reported on success as `Applied (3-way)`), attempts the
whitespace-tolerant apply only if the three-way merge also fails, and is
in the failed/conflict state exactly when all three strategies fail. -/
theorem apply_single_patch_strategy_order (dirs : List String) (name : String)
    (src : List String) (tree : List (List String)) (git : ApplyStrategy → Bool)
    (hdel : fileSuffix name ≠ ".deleted") (hbin : fileSuffix name ≠ ".binary")
    (hstd : git .standard = false) :
    (apply_single_patch dirs name src tree git true).gitAttempts[1]? = some .threeWay ∧
    (git .threeWay = true →
      (apply_single_patch dirs name src tree git true).success = true ∧
      (apply_single_patch dirs name src tree git true).message = "Applied (3-way): " ++ name ∧
      (apply_single_patch dirs name src tree git true).gitAttempts = [.standard, .threeWay]) ∧
    (git .threeWay = false →
      (apply_single_patch dirs name src tree git true).gitAttempts =
        [.standard, .threeWay, .whitespaceFix]) ∧
    ((apply_single_patch dirs name src tree git true).success = false ↔
      git .threeWay = false ∧ git .whitespaceFix = false) := by
  unfold apply_single_patch
  cases h3 : git .threeWay <;> cases hws : git .whitespaceFix <;>
    simp [hdel, hbin, hstd, h3, hws]

/-- C2, witness: the amended ordering at a concrete patch and oracle — the
standard apply fails, the three-way merge succeeds, and the result is
reported as `Applied (3-way)`. -/
theorem apply_single_patch_strategy_order_witness :
    (apply_single_patch [] "x.patch" ["src"] []
        (fun s => s == ApplyStrategy.threeWay) true).message = "Applied (3-way): x.patch" :=
  ((apply_single_patch_strategy_order [] "x.patch" ["src"] []
      (fun s => s == ApplyStrategy.threeWay)
      (by decide) (by decide) (by decide)).2.1 (by decide)).2.1

/-- C8: applying a `.deleted` marker always succeeds; when the target is
absent the working tree is untouched and the message is `Already
deleted:`, when present the target is removed; afterwards the target is
absent, so a second application is again a success that leaves the tree
unchanged — deletion application is idempotent. -/
theorem deleted_marker_idempotent (dirs : List String) (name : String)
    (src : List String) (tree : List (List String)) (git : ApplyStrategy → Bool)
    (h : fileSuffix name = ".deleted") :
    (apply_single_patch dirs name src tree git true).success = true ∧
    ((src ++ [fileStem name]) ∉ tree →
      apply_single_patch dirs name src tree git true =
        { tree := tree, success := true
          message := "Already deleted: " ++ fileStem name, gitAttempts := [] }) ∧
    (src ++ [fileStem name]) ∉ (apply_single_patch dirs name src tree git true).tree ∧
    apply_single_patch dirs name src
        (apply_single_patch dirs name src tree git true).tree git true =
      { tree := (apply_single_patch dirs name src tree git true).tree, success := true
        message := "Already deleted: " ++ fileStem name, gitAttempts := [] } := by
  unfold apply_single_patch
  by_cases hmem : (src ++ [fileStem name]) ∈ tree <;>
    simp [h, hmem, List.mem_filter]

/-- C8, witness: applying the marker `f.txt.deleted` against a tree where
`src/f.txt` is already absent returns success with the tree unchanged. -/
theorem deleted_marker_idempotent_witness :
    apply_single_patch [] "f.txt.deleted" ["src"] [] (fun _ => false) true =
      { tree := [], success := true
        message := "Already deleted: f.txt", gitAttempts := [] } :=
  (deleted_marker_idempotent [] "f.txt.deleted" ["src"] [] (fun _ => false)
    (by decide)).2.1 (by decide)

/-- C10: the deletion target of a `.deleted` marker is derived from the
marker's final filename component only — the result is independent of the
marker's directory components (and of the git oracle, which is never
consulted), and the file removed from the tree is `src / stem(name)`. -/
theorem deleted_marker_target_from_stem (dirs : List String) (name : String)
    (src : List String) (tree : List (List String)) (git git' : ApplyStrategy → Bool)
    (pe : Bool) (h : fileSuffix name = ".deleted") :
    apply_single_patch dirs name src tree git pe = apply_single_patch [] name src tree git' pe ∧
    ((src ++ [fileStem name]) ∈ tree →
      (apply_single_patch dirs name src tree git true).tree =
        tree.filter (· ≠ src ++ [fileStem name])) ∧
    ((src ++ [fileStem name]) ∉ tree →
      (apply_single_patch dirs name src tree git true).tree = tree) := by
  refine ⟨?_, fun hmem => ?_, fun hmem => ?_⟩
  · unfold apply_single_patch
    cases pe <;> simp [h]
  · unfold apply_single_patch
    simp [h, hmem]
  · unfold apply_single_patch
    simp [h, hmem]

/-- C10, witness: a marker at `a/b/c.txt.deleted` deletes `<src>/c.txt`,
not `<src>/a/b/c.txt`. -/
theorem deleted_marker_target_from_stem_witness :
    (apply_single_patch ["a", "b"] "c.txt.deleted" ["src"]
        [["src", "a", "b", "c.txt"], ["src", "c.txt"]] (fun _ => false) true).tree =
      [["src", "a", "b", "c.txt"]] := by
  have h := (deleted_marker_target_from_stem ["a", "b"] "c.txt.deleted" ["src"]
    [["src", "a", "b", "c.txt"], ["src", "c.txt"]] (fun _ => false) (fun _ => false) true
    (by decide)).2.1 (by decide)
  rw [h]
  decide

/-! ## Claims about custom-base extraction -/

/-- C3: evaluation of `extract_with_base` at the two empty-diff probe
outcomes.  The delete side matches the spec (a content-less Delete
`FilePatch` is recorded), but on the add side the code merely re-runs the
identical `git diff base..head -- file` command whose output was just
observed empty, so with a deterministic backend NO add patch is produced —
contradicting the code's own "File was added - get full content" intent. -/
theorem extract_with_base_empty_diff_probe_results :
    extract_with_base_patches addedFileOracle ["added.txt"] = [] ∧
    extract_with_base_patches deletedFileOracle ["gone.txt"] =
      [("gone.txt",
        { file_path := "gone.txt"
          operation := .delete
          old_path := none
          patch_content := none
          is_binary := false
          similarity := none })] := by
  decide

/-! ## Claims about the dev-CLI batch apply loop -/

/-- C9, counterexample: when the git subprocess for the first patch times
out, the whole batch run terminates with the raised `GitError` — the
timed-out patch is not recorded as failed and the next patch is never
attempted (the result is an error, not an `(applied, failed)` report). -/
theorem timeout_kills_batch_run :
    process_patch_list [timeoutPatch, okPatch] = .error "GitError: command timed out" ∧
    (process_patch_list [timeoutPatch, okPatch]).isOk = false :=
  ⟨rfl, rfl⟩

theorem dev_apply_ok_of_not_raises (q : DevPatch) (hdisk : q.onDisk = true)
    (hq : devPatchRaises q = false) : ∃ b, dev_apply_single_patch q = .ok b := by
  unfold devPatchRaises at hq
  rw [hdisk] at hq
  simp only [Bool.true_and] at hq
  unfold dev_apply_single_patch
  cases hs : q.standard with
  | timeout => rw [hs] at hq; simp at hq
  | ret c =>
    rw [hs] at hq
    by_cases hc : c = 0
    · exact ⟨true, by simp [hc]⟩
    · cases ht : q.threeWay with
      | timeout => rw [ht] at hq; simp [hc] at hq
      | ret c2 => exact ⟨c2 = 0, by simp [hc, ht]⟩

theorem dev_apply_error_of_raises (p : DevPatch) (hp : devPatchRaises p = true) :
    dev_apply_single_patch p = .error "GitError: command timed out" := by
  unfold devPatchRaises at hp
  rw [Bool.and_eq_true] at hp
  obtain ⟨_, hM⟩ := hp
  unfold dev_apply_single_patch
  cases hs : p.standard with
  | timeout => rfl
  | ret c =>
    rw [hs] at hM
    rw [Bool.and_eq_true] at hM
    obtain ⟨hc, ht⟩ := hM
    cases ht2 : p.threeWay with
    | timeout => simp [decide_eq_true_eq.mp hc]
    | ret c2 => rw [ht2] at ht; simp at ht

theorem process_go_timeout (p : DevPatch) (post : List DevPatch)
    (hp : devPatchRaises p = true) :
    ∀ (pre : List DevPatch) (applied : Nat) (failed : List String),
      (∀ q ∈ pre, devPatchRaises q = false) →
      process_patch_list_go (pre ++ p :: post) applied failed =
        .error "GitError: command timed out" := by
  intro pre
  induction pre with
  | nil =>
    intro applied failed _
    have hdisk : p.onDisk = true := by
      unfold devPatchRaises at hp
      rw [Bool.and_eq_true] at hp
      exact hp.1
    simp only [List.nil_append, process_patch_list_go, hdisk,
      dev_apply_error_of_raises p hp, Bool.not_true, Bool.false_eq_true, if_false]
  | cons q rest ih =>
    intro applied failed hq
    have hqf : devPatchRaises q = false := hq q (List.mem_cons_self q rest)
    have hrest : ∀ r ∈ rest, devPatchRaises r = false :=
      fun r hr => hq r (List.mem_cons_of_mem q hr)
    simp only [List.cons_append, process_patch_list_go]
    cases hdisk : q.onDisk with
    | false => simpa [hdisk] using ih applied (failed ++ [q.name]) hrest
    | true =>
      obtain ⟨b, hb⟩ := dev_apply_ok_of_not_raises q hdisk hqf
      rw [hb]
      cases b
      · simpa [hdisk] using ih applied (failed ++ [q.name]) hrest
      · simpa [hdisk] using ih (applied + 1) failed hrest

/-- C9, amended: for every batch in which some patch's git invocation
times out (and no earlier patch's invocation does), the raised `GitError`
propagates uncaught out of `process_patch_list`, aborting the entire run:
the timed-out patch is not recorded as failed and the remaining patches
are not attempted. -/
theorem timeout_propagates_out_of_batch (pre post : List DevPatch) (p : DevPatch)
    (hpre : ∀ q ∈ pre, devPatchRaises q = false) (hp : devPatchRaises p = true) :
    process_patch_list (pre ++ p :: post) = .error "GitError: command timed out" :=
  process_go_timeout p post hp pre 0 [] hpre

/-- C9, witness: a clean patch followed by a timing-out one — the run
aborts with the `GitError` instead of reporting `(1 applied, 1 failed)`. -/
theorem timeout_propagates_out_of_batch_witness :
    process_patch_list [okPatch, timeoutPatch] = .error "GitError: command timed out" :=
  timeout_propagates_out_of_batch [okPatch] [] timeoutPatch (by decide) (by decide)

/-! ## Claims about series file parsing -/

theorem parse_series_step_eq (patches : List SeriesEntry) (l : String) :
    parse_series_step patches l = patches ++ (seriesLineEntry l).toList := by
  simp only [parse_series_step, seriesLineEntry]
  split_ifs <;> simp

theorem parse_series_foldl (lines : List String) :
    ∀ acc : List SeriesEntry,
      lines.foldl parse_series_step acc = acc ++ lines.filterMap seriesLineEntry := by
  induction lines with
  | nil => intro acc; simp
  | cons l rest ih =>
    intro acc
    simp only [List.foldl_cons, List.filterMap_cons]
    rw [parse_series_step_eq]
    cases h : seriesLineEntry l <;> simp [h, ih]

/-- C4: series parsing is an order-preserving per-line `filterMap` — no
sorting and no deduplication; a blank line or a line whose first
non-space character is `#` yields no entry; a trailing ` #skip:p1,p2`
becomes the entry's lowercased skip-platform list; any other trailing
` #...` comment is stripped, leaving the entry without skip platforms. -/
theorem series_parsing_order_and_directives :
    (∀ lines, parse_series_file lines = lines.filterMap seriesLineEntry) ∧
    (∀ s, strTrim s = "" ∨ strStartsWith (strTrim s) "#" = true → seriesLineEntry s = none) ∧
    seriesLineEntry "nxtscape/foo.patch #skip:Darwin,WIN32" =
      some ("nxtscape/foo.patch", some ["darwin", "win32"]) ∧
    seriesLineEntry "nxtscape/bar.patch # just a note" = some ("nxtscape/bar.patch", none) ∧
    parse_series_file ["b.patch", "", "# comment", "a.patch", "b.patch"] =
      [("b.patch", none), ("a.patch", none), ("b.patch", none)] := by
  refine ⟨fun lines => ?_, fun s h => ?_, by decide, by decide, by decide⟩
  · rw [parse_series_file, parse_series_foldl]
    simp
  · simp only [seriesLineEntry]
    rcases h with h | h
    · simp [h]
    · simp [h]

/-- C4, witness: the comment/blank rule and the filterMap characterization
at concrete inputs. -/
theorem series_parsing_order_and_directives_witness :
    seriesLineEntry "   # commented out" = none ∧
    parse_series_file ["x.patch"] = [("x.patch", none)] :=
  ⟨series_parsing_order_and_directives.2.1 "   # commented out" (Or.inr (by decide)),
   by rw [series_parsing_order_and_directives.1]; decide⟩

/-! ## Claims about the platform skip filter -/

theorem series_platform_filter_go (current : String) :
    ∀ (entries : List SeriesEntry) (acc : List SeriesEntry × Nat),
      entries.foldl
        (fun acc e =>
          if should_skip_patch current e.2 then (acc.1, acc.2 + 1)
          else (acc.1 ++ [e], acc.2)) acc =
      (acc.1 ++ entries.filter (fun e => !should_skip_patch current e.2),
       acc.2 + entries.countP (fun e => should_skip_patch current e.2)) := by
  intro entries
  induction entries with
  | nil => intro acc; simp
  | cons e rest ih =>
    intro acc
    simp only [List.foldl_cons, List.filter_cons, List.countP_cons]
    cases h : should_skip_patch current e.2 <;>
      · rw [ih]
        refine Prod.ext ?_ ?_ <;> simp [h] <;> omega

/-- C5: (i) a series entry is skipped exactly when the host platform
matches a listed platform through the alias sets
`{darwin, macos, mac, osx}`, `{linux}`, `{windows, win32, win}` (and an
entry without a skip list is never skipped); (ii) the platform filter
passes exactly the non-matching entries to the apply loop and counts the
skipped ones separately; (iii) an entry listing only non-matching
platforms (`["darwin","macos"]` on Windows) is attempted; (iv) a series in
which every entry is skipped completes as a success with zero attempts,
not an error. -/
theorem series_platform_skip_behavior :
    (∀ l : List String,
      (should_skip_patch "darwin" (some l) = true ↔
        ∃ p ∈ l, p ∈ (["darwin", "macos", "mac", "osx"] : List String)) ∧
      (should_skip_patch "linux" (some l) = true ↔
        ∃ p ∈ l, p ∈ (["linux"] : List String)) ∧
      (should_skip_patch "windows" (some l) = true ↔
        ∃ p ∈ l, p ∈ (["windows", "win32", "win"] : List String))) ∧
    (∀ current, should_skip_patch current none = false) ∧
    (∀ current entries,
      series_platform_filter current entries =
        (entries.filter (fun e => !should_skip_patch current e.2),
         entries.countP (fun e => should_skip_patch current e.2))) ∧
    should_skip_patch "windows" (some ["darwin", "macos"]) = false ∧
    apply_patches_run "windows" [("p.patch", some ["darwin", "macos"])]
        (fun _ => true) (fun _ => .completed) = .ok (true, ["p.patch"], 0) ∧
    (∀ entries current pathExists runPatch,
      (∀ e ∈ entries, should_skip_patch current e.2 = true) →
      apply_patches_run current entries pathExists runPatch =
        .ok (true, [], entries.length)) := by
  refine ⟨fun l => ⟨?_, ?_, ?_⟩, fun current => rfl, fun current entries => ?_, by decide,
    rfl, fun entries current pathExists runPatch h => ?_⟩
  · simp [should_skip_patch, platform_aliases, List.any_eq_true]
  · simp [should_skip_patch, platform_aliases, List.any_eq_true]
  · simp [should_skip_patch, platform_aliases, List.any_eq_true]
  · unfold series_platform_filter
    rw [series_platform_filter_go]
    simp
  · have hfil : entries.filter (fun e => !should_skip_patch current e.2) = [] :=
      List.filter_eq_nil_iff.mpr (fun e he => by simp [h e he])
    have hcnt : entries.countP (fun e => should_skip_patch current e.2) = entries.length :=
      List.countP_eq_length.mpr (fun e he => h e he)
    unfold apply_patches_run series_platform_filter
    rw [series_platform_filter_go]
    simp [hfil, hcnt]

/-- C5, witness: an entry skipping `macos` run on a macOS host matches via
the alias set and the whole (singleton) series completes as a success
with zero attempts. -/
theorem series_platform_skip_behavior_witness :
    should_skip_patch "darwin" (some ["macos"]) = true ∧
    apply_patches_run "darwin" [("x.patch", some ["macos"])]
        (fun _ => true) (fun _ => .completed) = .ok (true, [], 1) :=
  ⟨(series_platform_skip_behavior.1 ["macos"]).1.mpr ⟨"macos", by decide, by decide⟩,
   series_platform_skip_behavior.2.2.2.2.2 [("x.patch", some ["macos"])] "darwin"
     (fun _ => true) (fun _ => .completed) (by decide)⟩

/-! ## Claims about the feature registry -/

/-- C6: calling `feature add` on an existing feature merges the stored and
incoming file lists into their set union, lexicographically sorted and
without duplicates, so the stored count is the size of the union — not
the sum of the two lists' lengths (concretely, `{a,b} ∪ {b,c}` stores 3
files, not 4). -/
theorem add_feature_files_sorted_union (old newFiles : List String) :
    List.Sorted strLe (add_feature_files old newFiles) ∧
    (add_feature_files old newFiles).toFinset = old.toFinset ∪ newFiles.toFinset ∧
    (add_feature_files old newFiles).Nodup ∧
    (add_feature_files old newFiles).length = (old.toFinset ∪ newFiles.toFinset).card ∧
    add_feature_files ["a", "b"] ["b", "c"] = ["a", "b", "c"] := by
  have hperm : (add_feature_files old newFiles).Perm ((old ++ newFiles).dedup) :=
    List.perm_insertionSort _ _
  refine ⟨List.sorted_insertionSort _ _, ?_, ?_, ?_, by decide⟩
  · ext a
    simp only [List.mem_toFinset, Finset.mem_union]
    rw [hperm.mem_iff]
    simp [List.mem_dedup]
  · exact hperm.nodup_iff.mpr (List.nodup_dedup _)
  · rw [hperm.length_eq, ← List.card_toFinset, List.toFinset_append]

end BrowserOS
